import Mathlib

/-!
Shallow embedding of the daudin pipeline dispatch engine
(`daudinlib/pipeline.py`) and of the line splitter (`pysh/parse.py`).

The engine is a mutable object (`Pipeline`) whose `run` method classifies a
command string by trying, in order, Python expression evaluation
(`_tryEval`), Python statement execution (`_tryExec`) and external shell
execution (`_tryShell`).  We model the object state as an explicit record
that every operation threads, and the behaviour of the embedded Python
interpreter (`eval`, `code.compile_command`, `exec`) and of the operating
system (`subprocess.run`, the pseudo-tty loop) as an explicit `Interp`
oracle: the control flow, state updates and string processing below are
translated line by line from the source, while the oracle supplies the
outcome of each call into the environment.

Python string operations are re-implemented structurally on the character
list so that concrete runs reduce inside the kernel.
-/

namespace Daudin

/-- Python str.strip() whitespace class (space, tab, newline, cr, vt, ff). -/
def isPySpace (c : Char) : Bool :=
  c == ' ' || c == '\t' || c == '\n' || c == '\r' || c == '\x0b' || c == '\x0c'

/-- Python `command.strip()`. -/
def pyStrip (s : String) : String :=
  String.mk (((s.data.dropWhile isPySpace).reverse.dropWhile isPySpace).reverse)

/-- Python `s.endswith(chr(10))`. -/
def endsWithNl (s : String) : Bool :=
  match s.data.getLast? with
  | some c => c == '\n'
  | none => false

/-- Python `s[0:-1]` as used to drop one trailing newline. -/
def dropLastChar (s : String) : String :=
  String.mk s.data.dropLast

/-- Python `s.find(chr(10)) > -1`. -/
def containsNl (s : String) : Bool :=
  s.data.any (fun c => c == '\n')

/-- Helper for Python `s.split(chr(10))`. -/
def splitNlAux : List Char → List Char → List String
  | [], acc => [String.mk acc.reverse]
  | c :: rest, acc =>
      if c == '\n' then String.mk acc.reverse :: splitNlAux rest []
      else splitNlAux rest (c :: acc)

/-- Python `s.split(chr(10))`: the empty string yields one empty field. -/
def pySplitNl (s : String) : List String :=
  splitNlAux s.data []

/-- A Python value as it can sit in the `self.stdin` value register: absent
(`None`), a string, a list of lines, a readable text stream (with its
exhaustion state, since `read()` drains it), the `IGNORE` sentinel, or any
other object carried with its `str()` rendering. -/
inductive PyValue where
  | vNone
  | vStr (s : String)
  | vList (ls : List String)
  | vStream (content : String) (exhausted : Bool)
  | vIgnore
  | vOther (s : String)
deriving DecidableEq, Repr

/-- Python `str(v)` for the values we track (the list rendering is the
Python list repr, with `chr(39)` quotes around each element). -/
def pyToStr : PyValue → String
  | .vNone => "None"
  | .vStr s => s
  | .vList ls =>
      "[" ++ String.intercalate ", " (ls.map (fun s => "\x27" ++ s ++ "\x27")) ++ "]"
  | .vStream _ _ => "<stream>"
  | .vIgnore => "<IGNORE>"
  | .vOther s => s

/-- The mutable state of a `Pipeline` object: the value register
(`self.stdin`), its undo snapshot (`self.lastStdin`), the incomplete-input
buffer (`self.pendingText`), the line-sequence flag
(`self.lastResultIsList`), the pipe-chain flag (`self.inPipeline`) and the
names defined in the shared namespace (`self.local`). -/
structure Pipeline where
  stdin : PyValue
  lastStdin : PyValue
  pendingText : String
  lastResultIsList : Bool
  inPipeline : Bool
  localNames : List String
deriving DecidableEq, Repr

/-- The state right after `Pipeline.__init__` (no init file loaded). -/
def initial : Pipeline :=
  { stdin := .vNone, lastStdin := .vNone, pendingText := "",
    lastResultIsList := false, inPipeline := false,
    localNames := ["self", "sh", "cd"] }

/-- Outcome of `eval(strippedCommand, self.local)` under captured stdout:
either it raises, or it returns a value together with the captured
standard output text. -/
inductive EvalRes where
  | err
  | ok (result : PyValue) (stdout : String)
deriving DecidableEq, Repr

/-- Outcome of `code.compile_command(command)`: it raises
(Overflow/Syntax/ValueError), returns `None` (syntactically incomplete), or
returns a code object (complete). -/
inductive CompileRes where
  | invalid
  | incomplete
  | complete
deriving DecidableEq, Repr

/-- Outcome of `exec(codeobj, self.local)` under captured stdout: either it
raises, or it finishes with captured output and a list of names it added
to the shared namespace. -/
inductive ExecRes where
  | raises
  | ok (stdout : String) (defines : List String)
deriving DecidableEq, Repr

/-- Result of `subprocess.run(...)`: the exit status and the captured
standard output (`CompletedProcess.returncode` / `.stdout`). -/
structure ShRes where
  returncode : Nat
  stdout : String
deriving DecidableEq, Repr

/-- Oracle for the embedded interpreter and the operating system.  `evalFn`,
`compileFn` and `execFn` describe what CPython does with a given source
text (with the current value register bound to the underscore name);
`shFn` describes what `subprocess.run` returns for a command and optional
input text; `shPtyFn` gives the post-processed transcript of the
pseudo-tty mode (`_shPty`), which never reports an exit status. -/
structure Interp where
  evalFn : String → PyValue → EvalRes
  compileFn : String → CompileRes
  execFn : String → PyValue → ExecRes
  shFn : String → Option String → ShRes
  shPtyFn : String → Option String → String

/-- Result of one `tryEval`/`tryExec`/`tryShell` step: the new state plus
the `(handled, doPrint)` pair the Python methods return. -/
structure StepRes where
  state : Pipeline
  handled : Bool
  doPrint : Bool
deriving DecidableEq, Repr

/-- Embedding of `Pipeline._tryEval`. -/
def tryEval (interp : Interp) (st : Pipeline) (strippedCommand : String)
    (printArg : Bool) : StepRes :=
  if strippedCommand == "" then
    { state := st, handled := false, doPrint := false }
  else
    match interp.evalFn strippedCommand st.stdin with
    | .err => { state := st, handled := false, doPrint := false }
    | .ok result so =>
        let st1 := { st with pendingText := "" }
        let step : PyValue × Pipeline × Bool :=
          match result with
          | .vStr s =>
              (.vStr (if endsWithNl s then dropLastChar s else s), st1, printArg)
          | .vNone =>
              if !(so == "") then
                let stdout := if endsWithNl so then dropLastChar so else so
                if containsNl stdout then
                  (.vList (pySplitNl stdout),
                   { st1 with lastResultIsList := true }, printArg)
                else
                  (.vStr stdout, st1, printArg)
              else
                (.vNone, st1, false)
          | r => (r, st1, printArg)
        match step with
        | (result2, st2, doPrint) =>
            if result2 == .vIgnore then
              { state := st2, handled := true, doPrint := false }
            else
              { state := { st2 with stdin := result2 }, handled := true,
                doPrint := doPrint }

/-- Embedding of `Pipeline._tryExec`. -/
def tryExec (interp : Interp) (st : Pipeline) (command : String)
    (printArg : Bool) : StepRes :=
  match interp.compileFn command with
  | .invalid =>
      { state := { st with pendingText := "" }, handled := false,
        doPrint := false }
  | .incomplete =>
      -- `compile_command` returned None: buffer the text.  The returned
      -- doPrint is False on both source branches (non-empty pendingText
      -- suppresses it, and an empty one leaves the captured stdout empty).
      { state := { st with pendingText := command }, handled := true,
        doPrint := false }
  | .complete =>
      match interp.execFn command st.stdin with
      | .raises =>
          -- the exception is recorded, pendingText is still cleared, and
          -- the method reports (False, False): not handled.
          { state := { st with pendingText := "" }, handled := false,
            doPrint := false }
      | .ok so defines =>
          let st1 := { st with pendingText := "",
                               localNames := st.localNames ++ defines }
          if !(so == "") then
            let stdout := if endsWithNl so then dropLastChar so else so
            if containsNl stdout then
              { state := { st1 with stdin := .vList (pySplitNl stdout),
                                    lastResultIsList := true },
                handled := true, doPrint := printArg }
            else
              { state := { st1 with stdin := .vStr stdout }, handled := true,
                doPrint := printArg }
          else
            { state := st1, handled := true, doPrint := false }

/-- The piped standard input `Pipeline.sh` hands to the subprocess: only
when inside a pipeline; a list value is newline-joined (elements passed
through `str`) with a trailing newline, any other non-absent value is its
`str` with a trailing newline. -/
def shInput (st : Pipeline) : Option String :=
  if st.inPipeline then
    match st.stdin with
    | .vNone => none
    | .vList ls =>
        some (String.intercalate "\n" (ls.map (fun el => pyToStr (.vStr el))) ++ "\n")
    | v => some (pyToStr v ++ "\n")
  else none

/-- Embedding of `Pipeline._sh`: `subprocess.run` is called without
`check=True`, so the captured stdout is returned whatever the exit status
is and `CalledProcessError` is never raised here. -/
def shCaptured (interp : Interp) (stdin : Option String) (command : String) :
    String :=
  (interp.shFn command stdin).stdout

/-- Embedding of `Pipeline.sh`: choose the pseudo-tty mode when printing,
else the captured mode. -/
def sh (interp : Interp) (st : Pipeline) (command : String)
    (printArg : Bool) : String :=
  let stdin := shInput st
  if printArg then interp.shPtyFn command stdin
  else shCaptured interp stdin command

/-- Embedding of `Pipeline._tryShell`.  Neither shell mode raises
`CalledProcessError` (no `check=True`), so the except branch is
unreachable and the method always reports handled with printing off. -/
def tryShell (interp : Interp) (st : Pipeline) (command : String)
    (printArg : Bool) : StepRes :=
  let result := sh interp st command printArg
  if !(result == "") then
    let result1 := if endsWithNl result then dropLastChar result else result
    { state := { st with stdin := .vList (pySplitNl result1),
                         lastResultIsList := false },
      handled := true, doPrint := false }
  else
    { state := { st with stdin := .vList [] }, handled := true,
      doPrint := false }

/-- Embedding of `Pipeline.undo`. -/
def undo (st : Pipeline) : Pipeline :=
  { st with stdin := st.lastStdin }

/-- Embedding of `Pipeline.reset`. -/
def reset (st : Pipeline) : Pipeline :=
  { st with lastStdin := st.stdin, stdin := .vNone, pendingText := "",
            lastResultIsList := false, inPipeline := false }

/-- The snapshot at the top of `Pipeline.run`: `self.lastStdin :=
self.stdin` and `self.lastResultIsList := False`. -/
def snapshot (st : Pipeline) : Pipeline :=
  { st with lastStdin := st.stdin, lastResultIsList := false }

/-- The accumulated `fullCommand` of `Pipeline.run`: a pending incomplete
statement is continued with the raw command text (or with nothing when the
command is blank); otherwise the stripped command stands alone. -/
def fullCommandOf (st : Pipeline) (command : String) : String :=
  let strippedCommand := pyStrip command
  if !(st.pendingText == "") then
    st.pendingText ++ "\n" ++ (if !(strippedCommand == "") then command else "")
  else strippedCommand

/-- The pipe-chain update at dispatch time in `Pipeline.run`. -/
def dispatchInPipeline (st : Pipeline) (fullCommand : String)
    (commandNumber nCommands : Nat) : Bool :=
  st.inPipeline || decide (commandNumber > 1) ||
    (decide (nCommands > 1) && (commandNumber == 1) && (fullCommand == ""))

/-- The state after the bookkeeping at the top of `Pipeline.run`: snapshot
plus the dispatch-time pipe-chain update. -/
def dispatchState (st : Pipeline) (command : String)
    (commandNumber nCommands : Nat) : Pipeline :=
  let st1 := snapshot st
  { st1 with
    inPipeline := dispatchInPipeline st1 (fullCommandOf st1 command)
      commandNumber nCommands }

/-- The three-path cascade of `Pipeline.run`: expression, then statement,
then shell, each tried only when the previous one did not handle the
command. -/
def cascade (interp : Interp) (st : Pipeline) (fullCommand : String)
    (printArg : Bool) : StepRes :=
  let r1 := tryEval interp st fullCommand printArg
  let r2 := if r1.handled then r1 else tryExec interp r1.state fullCommand printArg
  if r2.handled then r2 else tryShell interp r2.state fullCommand printArg

/-- Result of `Pipeline.run`, extended with the internal handled flag so
that statements about the cascade can observe it. -/
structure RunRes where
  state : Pipeline
  handled : Bool
  isIncomplete : Bool
  doPrint : Bool
deriving DecidableEq, Repr

/-- Embedding of `Pipeline.run`: snapshot, accumulate, update the pipe
chain, cascade through the three paths, do the end-of-line bookkeeping or
report and reset, and return `(bool(pendingText), doPrint)`. -/
def runFull (interp : Interp) (st : Pipeline) (command : String)
    (commandNumber : Nat := 1) (nCommands : Nat := 1) : RunRes :=
  let fullCommand := fullCommandOf st command
  let st2 := dispatchState st command commandNumber nCommands
  let printArg := decide (commandNumber = nCommands)
  let r3 := cascade interp st2 fullCommand printArg
  let stFinal :=
    if r3.handled then
      if commandNumber = nCommands then
        { r3.state with inPipeline := (fullCommand == "") }
      else r3.state
    else
      -- `Could not handle command` is reported on errfp and the state reset.
      reset r3.state
  { state := stFinal, handled := r3.handled,
    isIncomplete := !(stFinal.pendingText == ""), doPrint := r3.doPrint }

/-- Helper for the `pysh/parse.py` line splitter: cut the character list at
every pipe character that is not immediately preceded by a backslash
(the lookbehind of the unescaped-pipe regex); an escaped pair stays in
the current segment. -/
def splitPipesAux : List Char → List Char → List (List Char)
  | [], acc => [acc.reverse]
  | '\\' :: '|' :: rest, acc => splitPipesAux rest ('|' :: '\\' :: acc)
  | '|' :: rest, acc => acc.reverse :: splitPipesAux rest []
  | c :: rest, acc => splitPipesAux rest (c :: acc)

/-- Python `segment.replace(backslash-pipe, pipe)` specialised to the only
pattern the splitter uses. -/
def unescapePipes : List Char → List Char
  | '\\' :: '|' :: rest => '|' :: unescapePipes rest
  | c :: rest => c :: unescapePipes rest
  | [] => []

/-- Embedding of `pysh/parse.py` `lineSplitter`: split on every unescaped
pipe, unescape each segment, and yield only the non-empty segments (both
the loop body and the final yield are guarded by `if command`). -/
def lineSplitter (line : String) : List String :=
  ((splitPipesAux line.data []).map (fun seg => String.mk (unescapePipes seg))).filter
    (fun command => !(command == ""))

/-- Embedding of `Pipeline.print_`: the output text appended to `outfp`
and the state after the call.  A readable text stream is drained by
`read()` (so it is exhausted afterwards); a string gets at most one
trailing newline added; a flagged line sequence is newline-joined (`none`
models the `TypeError` Python raises when the flag is set but the value is
not a list of lines); anything else is printed via `str`. -/
def printValue (st : Pipeline) : Option (String × Pipeline) :=
  match st.stdin with
  | .vStream content exhausted =>
      let s := if exhausted then "" else content
      some (s ++ (if endsWithNl s then "" else "\n"),
            { st with stdin := .vStream content true })
  | .vStr s =>
      some (s ++ (if endsWithNl s then "" else "\n"), st)
  | v =>
      if st.lastResultIsList then
        match v with
        | .vList ls => some (String.intercalate "\n" ls ++ "\n", st)
        | _ => none
      else
        some (pyToStr v ++ "\n", st)

/-- Concrete oracle instance recording what CPython and the operating
system do on the specific inputs exercised below.  `eval` of a bare
number literal returns the number; `eval` of statements or of unknown
names raises; `compile_command` reports the unfinished function definition
incomplete, its blank-line completion complete, and a bare word complete
(it compiles as an expression statement whose execution then raises
`NameError`); the `false` utility exits with status 1 and no output, any
other external command prints a line `hi`. -/
def cpyEval (cmd : String) (_ : PyValue) : EvalRes :=
  if cmd == "6" then .ok (.vOther "6") ""
  else .err

/-- Part of the concrete CPython oracle: `code.compile_command`. -/
def cpyCompile (cmd : String) : CompileRes :=
  if cmd == "def f(x):" then .incomplete
  else if cmd == "def f(x):\n  return x*2" then .incomplete
  else .complete

/-- Part of the concrete CPython oracle: `exec` of a compiled command. -/
def cpyExec (cmd : String) (_ : PyValue) : ExecRes :=
  if cmd == "def f(x):\n  return x*2\n" then .ok "" ["f"]
  else if cmd == "" then .ok "" []
  else .raises

/-- Part of the concrete oracle: `subprocess.run` outcomes. -/
def cpySh (cmd : String) (_ : Option String) : ShRes :=
  if cmd == "false" then { returncode := 1, stdout := "" }
  else { returncode := 0, stdout := "hi\n" }

/-- Part of the concrete oracle: pseudo-tty transcripts. -/
def cpyShPty (cmd : String) (_ : Option String) : String :=
  if cmd == "false" then "" else "hi\n"

/-- The concrete oracle bundled. -/
def cpyOracle : Interp :=
  { evalFn := cpyEval, compileFn := cpyCompile, execFn := cpyExec,
    shFn := cpySh, shPtyFn := cpyShPty }

/-! Helper lemmas shared by the claim theorems. -/

/-- The shell path always reports the command handled: no branch of
`_tryShell` can fail, since `_sh` never passes `check=True` to
`subprocess.run` and `_shPty` never inspects the exit status. -/
theorem tryShell_handled (interp : Interp) (st : Pipeline) (c : String)
    (p : Bool) : (tryShell interp st c p).handled = true := by
  simp only [tryShell]
  split <;> rfl

theorem tryEval_lastStdin (interp : Interp) (st : Pipeline) (c : String)
    (p : Bool) : (tryEval interp st c p).state.lastStdin = st.lastStdin := by
  unfold tryEval
  split
  · rfl
  · rcases h : interp.evalFn c st.stdin with _ | ⟨r, so⟩
    · rfl
    · rcases r <;> dsimp only [] <;> split_ifs <;> rfl

theorem tryExec_lastStdin (interp : Interp) (st : Pipeline) (c : String)
    (p : Bool) : (tryExec interp st c p).state.lastStdin = st.lastStdin := by
  unfold tryExec
  rcases h : interp.compileFn c with _ | _ | _
  · rfl
  · rfl
  · rcases h2 : interp.execFn c st.stdin with _ | ⟨so, d⟩
    · rfl
    · dsimp only []
      split_ifs <;> rfl

theorem tryShell_lastStdin (interp : Interp) (st : Pipeline) (c : String)
    (p : Bool) : (tryShell interp st c p).state.lastStdin = st.lastStdin := by
  simp only [tryShell]
  split <;> rfl

theorem cascade_handled (interp : Interp) (st : Pipeline) (c : String)
    (p : Bool) : (cascade interp st c p).handled = true := by
  unfold cascade
  dsimp only []
  repeat' split
  all_goals first | assumption | exact tryShell_handled ..

theorem cascade_lastStdin (interp : Interp) (st : Pipeline) (c : String)
    (p : Bool) : (cascade interp st c p).state.lastStdin = st.lastStdin := by
  unfold cascade
  dsimp only []
  repeat' split
  all_goals
    simp_all [tryEval_lastStdin, tryExec_lastStdin, tryShell_lastStdin]

/-- Across one whole `run` call the undo snapshot is exactly the value
register at entry: it is written once at the top and no later step
touches it (the reset branch cannot be reached, the cascade always
handles). -/
theorem runFull_lastStdin (interp : Interp) (st : Pipeline) (c : String)
    (cn nc : Nat) : (runFull interp st c cn nc).state.lastStdin = st.stdin := by
  unfold runFull
  simp only [cascade_handled, if_true]
  split <;> simp [cascade_lastStdin, dispatchState, snapshot]

theorem fullCommandOf_snapshot (st : Pipeline) (c : String) :
    fullCommandOf (snapshot st) c = fullCommandOf st c := rfl

theorem dispatchState_stdin (st : Pipeline) (c : String) (cn nc : Nat) :
    (dispatchState st c cn nc).stdin = st.stdin := rfl

theorem dispatchState_pendingText (st : Pipeline) (c : String) (cn nc : Nat) :
    (dispatchState st c cn nc).pendingText = st.pendingText := rfl

theorem tryEval_err (interp : Interp) (st : Pipeline) (c : String) (p : Bool)
    (h : interp.evalFn c st.stdin = .err) :
    tryEval interp st c p = ⟨st, false, false⟩ := by
  unfold tryEval
  split
  · rfl
  · rw [h]

theorem tryExec_incomplete (interp : Interp) (st : Pipeline) (c : String)
    (p : Bool) (h : interp.compileFn c = .incomplete) :
    tryExec interp st c p = ⟨{ st with pendingText := c }, true, false⟩ := by
  unfold tryExec
  rw [h]

theorem tryExec_raises (interp : Interp) (st : Pipeline) (c : String)
    (p : Bool) (h : interp.compileFn c = .complete)
    (h2 : interp.execFn c st.stdin = .raises) :
    tryExec interp st c p = ⟨{ st with pendingText := "" }, false, false⟩ := by
  unfold tryExec
  rw [h, h2]

theorem cascade_incomplete (interp : Interp) (st : Pipeline) (c : String)
    (p : Bool) (he : interp.evalFn c st.stdin = .err)
    (hc : interp.compileFn c = .incomplete) :
    cascade interp st c p = ⟨{ st with pendingText := c }, true, false⟩ := by
  unfold cascade
  rw [tryEval_err interp st c p he]
  simp [tryExec_incomplete interp st c p hc]

theorem cascade_exec_raises (interp : Interp) (st : Pipeline) (c : String)
    (p : Bool) (he : c = "" ∨ interp.evalFn c st.stdin = .err)
    (hc : interp.compileFn c = .complete)
    (hx : interp.execFn c st.stdin = .raises) :
    cascade interp st c p = tryShell interp { st with pendingText := "" } c p := by
  have h1 : tryEval interp st c p = ⟨st, false, false⟩ := by
    rcases he with he | he
    · subst he
      unfold tryEval
      simp
    · exact tryEval_err interp st c p he
  unfold cascade
  rw [h1]
  simp [tryExec_raises interp st c p hc hx, tryShell_handled]

/-- For every non-stream value, `print_` leaves the whole state unchanged:
only a readable stream is mutated (drained) by printing. -/
theorem printValue_nonstream_state (st : Pipeline)
    (hstream : ∀ content exhausted, st.stdin ≠ .vStream content exhausted)
    (out : String) (st1 : Pipeline) (h : printValue st = some (out, st1)) :
    st1 = st := by
  unfold printValue at h
  cases hv : st.stdin with
  | vStream content exhausted => exact absurd hv (hstream content exhausted)
  | vStr s =>
      rw [hv] at h
      simp at h
      exact h.2.symm
  | vList ls =>
      rw [hv] at h
      split_ifs at h <;> simp_all
  | vNone =>
      rw [hv] at h
      split_ifs at h <;> simp_all
  | vIgnore =>
      rw [hv] at h
      split_ifs at h <;> simp_all
  | vOther s =>
      rw [hv] at h
      split_ifs at h <;> simp_all

/-! Claim theorems. -/

/-- C1 (code bug evidence): a non-zero exit of the captured run is NOT
surfaced as a distinguished failure.  `_sh` calls `subprocess.run`
without `check=True`, so `CalledProcessError` is never raised there, the
shell path always reports handled, and the exit-1 command `false` is
treated as an ordinary success with empty output: the value register
becomes the empty line list, nothing is reported and no reset happens
(the final state is exactly the normal-success state). -/
theorem claim1_nonzero_exit_not_surfaced :
    (∀ (interp : Interp) (st : Pipeline) (c : String) (p : Bool),
        (tryShell interp st c p).handled = true) ∧
    (cpySh "false" none).returncode = 1 ∧
    shCaptured cpyOracle none "false" = "" ∧
    runFull cpyOracle initial "false" 1 2 =
      { state := { stdin := .vList [], lastStdin := .vNone, pendingText := "",
                   lastResultIsList := false, inPipeline := false,
                   localNames := ["self", "sh", "cd"] },
        handled := true, isIncomplete := false, doPrint := false } :=
  ⟨fun interp st c p => tryShell_handled interp st c p, by decide⟩

/-- C2 (counterexample): on a process-path success with non-empty output
`hi` and the command being the only one of its line (so printing was
requested), the value register becomes the line list, but the
line-sequence flag is set to FALSE (not true as claimed) and the returned
shouldPrint is false even though the output is non-empty. -/
theorem claim2_counterexample :
    sh cpyOracle (dispatchState initial "doesnotexist" 1 1) "doesnotexist" true
      = "hi\n" ∧
    (runFull cpyOracle initial "doesnotexist" 1 1).state.stdin
      = PyValue.vList ["hi"] ∧
    (runFull cpyOracle initial "doesnotexist" 1 1).state.lastResultIsList
      = false ∧
    (runFull cpyOracle initial "doesnotexist" 1 1).doPrint = false := by
  decide

/-- C2 (amended): on process-path success, non-empty output has one
trailing newline stripped and is split into the line list that becomes
the value register, with the line-sequence flag deliberately set to
false (the source comments that the text was already printed in its
non-list form); empty output yields the empty list; the returned
shouldPrint is false in every case, not only the empty one. -/
theorem claim2_tryShell_spec (interp : Interp) (st : Pipeline) (c : String)
    (p : Bool) :
    (sh interp st c p ≠ "" →
      tryShell interp st c p =
        { state := { st with
                     stdin := PyValue.vList (pySplitNl
                       (if endsWithNl (sh interp st c p) = true then
                          dropLastChar (sh interp st c p)
                        else sh interp st c p)),
                     lastResultIsList := false },
          handled := true, doPrint := false }) ∧
    (sh interp st c p = "" →
      tryShell interp st c p =
        { state := { st with stdin := PyValue.vList [] }, handled := true,
          doPrint := false }) := by
  constructor <;> intro h <;> simp [tryShell, h]

/-- C2 witness: the amended process-path contract evaluated on a concrete
command whose captured output is one line. -/
theorem claim2_tryShell_spec_witness :
    tryShell cpyOracle initial "doesnotexist" false =
      { state := { initial with
                   stdin := PyValue.vList ["hi"],
                   lastResultIsList := false },
        handled := true, doPrint := false } := by
  have h := (claim2_tryShell_spec cpyOracle initial "doesnotexist" false).1
    (by decide)
  rw [h]
  decide

/-- C6: undo round-trips one run call.  The snapshot `lastStdin` is taken
from the value register at the start of every `run` call and nothing
later in the call rewrites it, and `undo` copies it back, so after
`run(X)` then `run(Y)` then `undo()` the value register holds exactly the
value produced by `run(X)`. -/
theorem claim6_undo_roundtrip (i1 i2 : Interp) (st : Pipeline) (x y : String)
    (cnx ncx cny ncy : Nat) :
    (undo (runFull i2 (runFull i1 st x cnx ncx).state y cny ncy).state).stdin
      = (runFull i1 st x cnx ncx).state.stdin ∧
    (runFull i2 (runFull i1 st x cnx ncx).state y cny ncy).state.lastStdin
      = (runFull i1 st x cnx ncx).state.stdin ∧
    (∀ s : Pipeline, (undo s).stdin = s.lastStdin) := by
  refine ⟨?_, ?_, fun s => rfl⟩ <;> simp [undo, runFull_lastStdin]

/-- C7 (counterexample): `reset` does NOT preserve the value register or
its undo snapshot: on a state whose value is the string x and whose
snapshot is absent, `reset` overwrites the snapshot with the value and
sets the value to absent. -/
theorem claim7_counterexample :
    (reset { stdin := .vStr "x", lastStdin := .vNone, pendingText := "p",
             lastResultIsList := true, inPipeline := true,
             localNames := [] }).stdin ≠ PyValue.vStr "x" ∧
    (reset { stdin := .vStr "x", lastStdin := .vNone, pendingText := "p",
             lastResultIsList := true, inPipeline := true,
             localNames := [] }).lastStdin ≠ PyValue.vNone := by
  decide

/-- C7 (amended): `reset` clears the pending text, closes the pipe chain,
clears the line-sequence flag, snapshots the previous value
(`lastStdin := stdin`) and sets the value register to absent; the shared
namespace is untouched. -/
theorem claim7_reset_spec (st : Pipeline) :
    (reset st).pendingText = "" ∧ (reset st).inPipeline = false ∧
    (reset st).lastResultIsList = false ∧ (reset st).stdin = PyValue.vNone ∧
    (reset st).lastStdin = st.stdin ∧ (reset st).localNames = st.localNames :=
  ⟨rfl, rfl, rfl, rfl, rfl, rfl⟩

/-- C8 (counterexample): printing is not idempotent when the value is a
readable stream: the first `print_` drains the stream and emits its
content, the second emits only a newline. -/
theorem claim8_counterexample :
    printValue { stdin := .vStream "hi\n" false, lastStdin := .vNone,
                 pendingText := "", lastResultIsList := false,
                 inPipeline := false, localNames := [] } =
      some ("hi\n",
        { stdin := .vStream "hi\n" true, lastStdin := .vNone,
          pendingText := "", lastResultIsList := false, inPipeline := false,
          localNames := [] }) ∧
    printValue { stdin := .vStream "hi\n" true, lastStdin := .vNone,
                 pendingText := "", lastResultIsList := false,
                 inPipeline := false, localNames := [] } =
      some ("\n",
        { stdin := .vStream "hi\n" true, lastStdin := .vNone,
          pendingText := "", lastResultIsList := false, inPipeline := false,
          localNames := [] }) ∧
    ("hi\n" : String) ≠ "\n" := by
  decide

/-- C8 (amended): printing is idempotent for every non-stream value (text,
flagged line sequence, or any other value): `print_` leaves the state
unchanged there, so an immediate second call produces the identical
output; only a readable stream is drained by the first call. -/
theorem claim8_print_idempotent (st : Pipeline) (out : String) (st1 : Pipeline)
    (hstream : ∀ content exhausted,
      st.stdin ≠ PyValue.vStream content exhausted)
    (h : printValue st = some (out, st1)) :
    st1 = st ∧ printValue st1 = some (out, st1) := by
  have hst : st1 = st := printValue_nonstream_state st hstream out st1 h
  subst hst
  exact ⟨rfl, h⟩

/-- C8 witness: a second print of a plain text value repeats the first
output exactly. -/
theorem claim8_print_idempotent_witness :
    ({ initial with stdin := PyValue.vStr "a" } : Pipeline)
        = { initial with stdin := PyValue.vStr "a" } ∧
    printValue { initial with stdin := PyValue.vStr "a" } =
      some ("a\n", { initial with stdin := PyValue.vStr "a" }) :=
  claim8_print_idempotent { initial with stdin := PyValue.vStr "a" } "a\n"
    { initial with stdin := PyValue.vStr "a" }
    (fun content exhausted h => PyValue.noConfusion h) (by decide)

/-- C9 (code bug evidence): the splitter under `pysh/parse.py` yields the
two expected stages for an unescaped pipe and one unescaped stage for an
escaped pipe, but, because both of its yields are guarded by a
non-emptiness test, it produces an EMPTY command sequence for the empty
line (and for a line holding only a separator), contradicting the
non-empty-by-construction property and the test suite of the repository,
which
expects the empty line to split into one empty command. -/
theorem claim9_lineSplitter_eval :
    lineSplitter "echo hi | cat" = ["echo hi ", " cat"] ∧
    lineSplitter "echo hi \\| wc -c" = ["echo hi | wc -c"] ∧
    lineSplitter "" = [] ∧
    lineSplitter "|" = [] := by
  decide

/-- C3: the pipe-chain field.  At dispatch it becomes true exactly when it
already was, or the command is not the first of its line, or it is the
first of a multi-command line whose accumulated text is empty; and when
the last command of the line was handled it is rewritten to true exactly
when the accumulated text is empty, so only a bare trailing separator
keeps the chain open. -/
theorem claim3_pipe_chain_spec (interp : Interp) (st : Pipeline) (c : String)
    (cn nc : Nat) :
    ((dispatchState st c cn nc).inPipeline = true ↔
      (st.inPipeline = true ∨ 1 < cn ∨
        (1 < nc ∧ cn = 1 ∧ fullCommandOf st c = ""))) ∧
    (cn = nc → (runFull interp st c cn nc).handled = true →
      ((runFull interp st c cn nc).state.inPipeline = true ↔
        fullCommandOf st c = "")) := by
  constructor
  · dsimp only [dispatchState]
    rw [fullCommandOf_snapshot]
    simp [dispatchInPipeline, snapshot, and_assoc, or_assoc]
  · intro he _
    subst he
    simp [runFull, cascade_handled]

/-- C3 witness: a handled single-command line with non-empty text closes
the chain. -/
theorem claim3_pipe_chain_spec_witness :
    (runFull cpyOracle initial "6" 1 1).state.inPipeline = true ↔
      fullCommandOf initial "6" = "" :=
  (claim3_pipe_chain_spec cpyOracle initial "6" 1 1).2 rfl (by decide)

/-- C4: the returned incomplete flag is the non-emptiness of the pending
text after the call; when the statement path classifies the (non-empty)
accumulated text as incomplete, the call buffers exactly that text,
suppresses printing, reports incomplete and leaves the value register
unchanged; and the three-step function-definition scenario behaves as
claimed, ending with the defined name in the shared namespace. -/
theorem claim4_incomplete_buffering :
    (∀ (interp : Interp) (st : Pipeline) (c : String) (cn nc : Nat),
        (runFull interp st c cn nc).isIncomplete =
          !((runFull interp st c cn nc).state.pendingText == "")) ∧
    (∀ (interp : Interp) (st : Pipeline) (c : String) (cn nc : Nat),
        fullCommandOf st c ≠ "" →
        interp.evalFn (fullCommandOf st c) st.stdin = .err →
        interp.compileFn (fullCommandOf st c) = .incomplete →
        (runFull interp st c cn nc).state.pendingText = fullCommandOf st c ∧
        (runFull interp st c cn nc).doPrint = false ∧
        (runFull interp st c cn nc).isIncomplete = true ∧
        (runFull interp st c cn nc).state.stdin = st.stdin) ∧
    ((runFull cpyOracle initial "def f(x):").isIncomplete = true ∧
      (runFull cpyOracle
        (runFull cpyOracle initial "def f(x):").state
        "  return x*2").isIncomplete = true ∧
      (runFull cpyOracle
        (runFull cpyOracle
          (runFull cpyOracle initial "def f(x):").state
          "  return x*2").state "").isIncomplete = false ∧
      "f" ∈ (runFull cpyOracle
        (runFull cpyOracle
          (runFull cpyOracle initial "def f(x):").state
          "  return x*2").state "").state.localNames) := by
  refine ⟨fun interp st c cn nc => rfl, ?_, by decide⟩
  intro interp st c cn nc hne he hc
  have hcas : cascade interp (dispatchState st c cn nc) (fullCommandOf st c)
      (decide (cn = nc)) =
      ⟨{ dispatchState st c cn nc with pendingText := fullCommandOf st c },
        true, false⟩ :=
    cascade_incomplete interp (dispatchState st c cn nc) (fullCommandOf st c)
      (decide (cn = nc)) he hc
  unfold runFull
  dsimp only []
  rw [hcas]
  split_ifs <;> simp_all [dispatchState, snapshot]

/-- C4 witness: the incomplete-branch contract evaluated on the opening
line of a function definition. -/
theorem claim4_incomplete_buffering_witness :
    (runFull cpyOracle initial "def f(x):" 1 1).state.pendingText =
        fullCommandOf initial "def f(x):" ∧
    (runFull cpyOracle initial "def f(x):" 1 1).doPrint = false ∧
    (runFull cpyOracle initial "def f(x):" 1 1).isIncomplete = true ∧
    (runFull cpyOracle initial "def f(x):" 1 1).state.stdin = initial.stdin :=
  claim4_incomplete_buffering.2.1 cpyOracle initial "def f(x):" 1 1
    (by decide) (by decide) (by decide)

/-- C5: when the compiler accepts the accumulated text as a complete
statement but executing it raises, the statement path reports the command
as not handled, the cascade falls through to the process path (the run
still ends handled, the value register holding whatever the shell stage
produced from the state with cleared pending text), and no exception
escapes `run` (the embedding is a total function). -/
theorem claim5_exec_exception_falls_through (interp : Interp) (st : Pipeline)
    (c : String) (cn nc : Nat)
    (he : fullCommandOf st c = "" ∨
      interp.evalFn (fullCommandOf st c) st.stdin = .err)
    (hc : interp.compileFn (fullCommandOf st c) = .complete)
    (hx : interp.execFn (fullCommandOf st c) st.stdin = .raises) :
    (tryExec interp (dispatchState st c cn nc) (fullCommandOf st c)
        (decide (cn = nc))).handled = false ∧
    (runFull interp st c cn nc).handled = true ∧
    (runFull interp st c cn nc).state.stdin =
      (tryShell interp { dispatchState st c cn nc with pendingText := "" }
        (fullCommandOf st c) (decide (cn = nc))).state.stdin := by
  have h1 : tryExec interp (dispatchState st c cn nc) (fullCommandOf st c)
      (decide (cn = nc)) =
      ⟨{ dispatchState st c cn nc with pendingText := "" }, false, false⟩ :=
    tryExec_raises interp (dispatchState st c cn nc) (fullCommandOf st c)
      (decide (cn = nc)) hc hx
  have hcas : cascade interp (dispatchState st c cn nc) (fullCommandOf st c)
      (decide (cn = nc)) =
      tryShell interp { dispatchState st c cn nc with pendingText := "" }
        (fullCommandOf st c) (decide (cn = nc)) :=
    cascade_exec_raises interp (dispatchState st c cn nc) (fullCommandOf st c)
      (decide (cn = nc)) he hc hx
  refine ⟨by rw [h1], ?_, ?_⟩
  · unfold runFull
    dsimp only []
    rw [hcas]
    simp [tryShell_handled]
  · unfold runFull
    dsimp only []
    rw [hcas]
    simp only [tryShell_handled, if_true]
    split_ifs <;> rfl

/-- C5 witness: a bare unknown name compiles, raises `NameError` at
execution, and ends up run by the shell stage. -/
theorem claim5_exec_exception_falls_through_witness :
    (tryExec cpyOracle (dispatchState initial "doesnotexist" 1 2)
        (fullCommandOf initial "doesnotexist") (decide (1 = 2))).handled
      = false ∧
    (runFull cpyOracle initial "doesnotexist" 1 2).handled = true ∧
    (runFull cpyOracle initial "doesnotexist" 1 2).state.stdin =
      (tryShell cpyOracle
        { dispatchState initial "doesnotexist" 1 2 with pendingText := "" }
        (fullCommandOf initial "doesnotexist") (decide (1 = 2))).state.stdin :=
  claim5_exec_exception_falls_through cpyOracle initial "doesnotexist" 1 2
    (Or.inr (by decide)) (by decide) (by decide)

/-- C10: with no pending text, a command whose trimmed text is empty is
handled without any unhandled-command error: the expression path is
skipped, the statement path accepts it as a complete no-op, printing is
suppressed, and both the value register and the pending text are left
unchanged. -/
theorem claim10_blank_command_noop (interp : Interp) (st : Pipeline)
    (c : String) (cn nc : Nat)
    (hpend : st.pendingText = "") (htrim : pyStrip c = "")
    (hcomp : interp.compileFn "" = .complete)
    (hexec : interp.execFn "" st.stdin = .ok "" []) :
    (tryEval interp (dispatchState st c cn nc) (fullCommandOf st c)
        (decide (cn = nc))).handled = false ∧
    (runFull interp st c cn nc).handled = true ∧
    (runFull interp st c cn nc).doPrint = false ∧
    (runFull interp st c cn nc).state.stdin = st.stdin ∧
    (runFull interp st c cn nc).state.pendingText = "" ∧
    (runFull interp st c cn nc).isIncomplete = false := by
  have hfc : fullCommandOf st c = "" := by
    simp [fullCommandOf, hpend, htrim]
  have h1 : tryEval interp (dispatchState st c cn nc) ""
      (decide (cn = nc)) = ⟨dispatchState st c cn nc, false, false⟩ := by
    simp [tryEval]
  have h2 : tryExec interp (dispatchState st c cn nc) ""
      (decide (cn = nc)) =
      ⟨{ dispatchState st c cn nc with
         pendingText := "",
         localNames := (dispatchState st c cn nc).localNames ++ [] },
        true, false⟩ := by
    unfold tryExec
    rw [hcomp, dispatchState_stdin, hexec]
    rfl
  have hcas : cascade interp (dispatchState st c cn nc) ""
      (decide (cn = nc)) =
      ⟨{ dispatchState st c cn nc with
         pendingText := "",
         localNames := (dispatchState st c cn nc).localNames ++ [] },
        true, false⟩ := by
    unfold cascade
    rw [h1]
    dsimp only []
    rw [h2]
    rfl
  refine ⟨?_, ?_⟩
  · rw [hfc, h1]
  · unfold runFull
    dsimp only []
    rw [hfc, hcas]
    split_ifs <;> simp_all [dispatchState, snapshot]

/-- C10 witness: the no-op contract evaluated on a blank command. -/
theorem claim10_blank_command_noop_witness :
    (tryEval cpyOracle (dispatchState initial "   " 1 1)
        (fullCommandOf initial "   ") (decide (1 = 1))).handled = false ∧
    (runFull cpyOracle initial "   " 1 1).handled = true ∧
    (runFull cpyOracle initial "   " 1 1).doPrint = false ∧
    (runFull cpyOracle initial "   " 1 1).state.stdin = initial.stdin ∧
    (runFull cpyOracle initial "   " 1 1).state.pendingText = "" ∧
    (runFull cpyOracle initial "   " 1 1).isIncomplete = false :=
  claim10_blank_command_noop cpyOracle initial "   " 1 1 (by decide)
    (by decide) (by decide) (by decide)

end Daudin
